import Mathlib

/-!
Verification of the `bs4_parser_pep` documentation scraper.

The development shallowly embeds the program's three source files
(`main.py`, `utils.py`, `configs.py`) together with the behaviour of the
external libraries they call (`bs4`, `re`, `urllib.parse`, `requests`,
`logging`).  Parsed HTML pages are modelled as trees of `Node`; the network
is a function from URLs to an optional response, where `none` models a
transport-level `RequestException`; the logging side effects are modelled as
an explicit list of `LogEntry`; Python exceptions become `Except` error
values of type `RunError`.

The repository's `constants.py`, `exceptions.py` and `outputs.py` are not
part of the sources; the constants (`MAIN_DOC_URL`, `PEP_URL`,
`EXPECTED_STATUS`) are therefore taken as explicit parameters of the
routines, following the spec's description of them as externally configured
constants, and `ParserFindTagException` is modelled as the
`RunError.tagNotFound` constructor.
-/

namespace BsParser

/-! ### Character-list string utilities (models of Python `str` methods) -/

/-- Test `hasPrefixL hay needle`: true when `needle` is a prefix of `hay`. -/
def hasPrefixL : List Char → List Char → Bool
  | _, [] => true
  | [], _ :: _ => false
  | a :: as, b :: bs => a == b && hasPrefixL as bs

/-- Test `containsL hay needle`: true when `needle` occurs inside `hay`
(model of Python's `needle in hay` substring test). -/
def containsL : List Char → List Char → Bool
  | [], needle => needle.isEmpty
  | c :: t, needle => hasPrefixL (c :: t) needle || containsL t needle

/-- Substring containment on `String` (Python `sub in hay`). -/
def strContains (hay sub : String) : Bool :=
  containsL hay.data sub.data

/-- Model of Python `str.split(sep)` for a non-empty separator:
splits around each non-overlapping occurrence of `sep`, left to right.
`acc` holds the (reversed) characters of the current piece; the fuel is
structurally decreasing and, started at the input's length, never runs
out before the input does. -/
def pySplitFuel (sep : List Char) : Nat → List Char → List Char → List (List Char)
  | _, [], acc => [acc.reverse]
  | 0, cs, acc => [acc.reverse ++ cs]
  | fuel + 1, c :: rest, acc =>
    if hasPrefixL (c :: rest) sep && !sep.isEmpty then
      acc.reverse :: pySplitFuel sep fuel (List.drop (sep.length - 1) rest) []
    else
      pySplitFuel sep fuel rest (c :: acc)

/-- Python `hay.split(sep)` (non-empty `sep`). -/
def pySplit (sep hay : List Char) : List (List Char) :=
  pySplitFuel sep hay.length hay []

/-- Python `hay.split(sep)[-1]`: the text after the last occurrence of
`sep` (the whole of `hay` when `sep` does not occur). -/
def pyLastSplitTail (sep hay : List Char) : List Char :=
  (pySplit sep hay).getLastD []

/-- Model of Python `str.split()` (no argument): whitespace-delimited
tokens, with empty tokens dropped.  `cur` holds the (reversed)
characters of the token being read. -/
def pyTokensAux : List Char → List Char → List (List Char)
  | [], cur => if cur.isEmpty then [] else [cur.reverse]
  | c :: rest, cur =>
    if c.isWhitespace then
      if cur.isEmpty then pyTokensAux rest []
      else cur.reverse :: pyTokensAux rest []
    else pyTokensAux rest (c :: cur)

/-- Python `cs.split()`. -/
def pyTokens (cs : List Char) : List (List Char) :=
  pyTokensAux cs []

/-- Model of the compiled pattern `re.compile(r'.+pdf-a4\.zip$')` applied
through `re.search`: a match exists exactly when the string ends with
`pdf-a4.zip`, there is at least one character before that suffix, and the
character immediately before the suffix is not a newline (`.` does not
match `\n`). -/
def matchesPdfA4 (s : String) : Bool :=
  let cs := s.data
  decide (11 ≤ cs.length) &&
    (List.drop (cs.length - 10) cs == "pdf-a4.zip".data) &&
    !(cs.getD (cs.length - 11) '\n' == '\n')

/-- Drop everything after the final `/` of a URL (keeping the slash). -/
def keepThroughLastSlash (cs : List Char) : List Char :=
  (cs.reverse.dropWhile (fun c => !(c == '/'))).reverse

/-- Model of `urllib.parse.urljoin` for the shapes of URL this program
uses: an absolute reference (containing `://`) replaces the base, any
other reference replaces the last path segment of the base. -/
def urljoin (base rel : String) : String :=
  if containsL rel.data "://".data then rel
  else String.mk (keepThroughLastSlash base.data) ++ rel

/-- Python `url.split('/')[-1]`: the final path segment of a URL. -/
def lastSegment (url : String) : String :=
  String.mk (pyLastSplitTail "/".data url.data)

/-! ### Parsed-document model (BeautifulSoup trees) -/

/-- A parsed HTML node: either a bare text node or an element with a tag
name, attributes and children. -/
inductive Node where
  | text (s : String) : Node
  | elem (tag : String) (attrs : List (String × String)) (children : List Node) : Node

mutual
/-- BeautifulSoup's `.text`: the concatenation of every descendant text
node, in document order. -/
def Node.innerText : Node → String
  | .text s => s
  | .elem _ _ cs => innerTextList cs

/-- The `.text` of a list of sibling nodes. -/
def innerTextList : List Node → String
  | [] => ""
  | c :: rest => Node.innerText c ++ innerTextList rest
end

mutual
/-- All element descendants of a node, in document (preorder) order; text
nodes are not returned (BeautifulSoup `find`/`find_all` with a tag name
only yields `Tag` objects). -/
def Node.descendantTags : Node → List Node
  | .text _ => []
  | .elem _ _ cs => descendantTagsList cs

/-- Preorder element listing of a list of sibling subtrees. -/
def descendantTagsList : List Node → List Node
  | [] => []
  | c :: rest =>
    (match c with
     | .text _ => []
     | .elem t a ch => Node.elem t a ch :: Node.descendantTags (Node.elem t a ch)) ++
      descendantTagsList rest
end

/-- Look up an attribute value on an element (Python `tag['name']` gives
`some` exactly when the attribute is present). -/
def attrOf (n : Node) (key : String) : Option String :=
  match n with
  | .text _ => none
  | .elem _ attrs _ => (attrs.find? (fun p => p.1 == key)).map (fun p => p.2)

/-- An attribute constraint of a BeautifulSoup `attrs` filter: either an
exact value (with the usual multi-valued treatment of `class`) or the one
compiled regular expression the program uses. -/
inductive AttrFilter where
  | exact (v : String) : AttrFilter
  | endsPdfA4 : AttrFilter

/-- A BeautifulSoup `attrs` dictionary. -/
abbrev AttrsFilter := List (String × AttrFilter)

/-- Whether one attribute constraint accepts a present attribute value.
For the multi-valued `class` attribute BeautifulSoup matches when the
requested token is one of the whitespace-separated class tokens. -/
def attrConstraintOk (key : String) (f : AttrFilter) (v : String) : Bool :=
  match f with
  | .exact w =>
      if key == "class" then (pyTokens v.data).contains w.data else v == w
  | .endsPdfA4 => matchesPdfA4 v

/-- Whether a node is an element with the requested tag name whose
attributes satisfy every constraint of the filter. -/
def matchesNode (tag : String) (filt : AttrsFilter) (n : Node) : Bool :=
  match n with
  | .text _ => false
  | .elem t _ _ =>
      t == tag &&
        filt.all (fun p =>
          match attrOf n p.1 with
          | none => false
          | some v => attrConstraintOk p.1 p.2 v)

/-- BeautifulSoup `node.find(tag, attrs)`: the first matching element
descendant in document order, if any. -/
def bsFind (root : Node) (tag : String) (filt : AttrsFilter) : Option Node :=
  (Node.descendantTags root).find? (matchesNode tag filt)

/-- BeautifulSoup `node.find_all(tag, attrs)`: every matching element
descendant, in document order. -/
def bsFindAll (root : Node) (tag : String) (filt : AttrsFilter) : List Node :=
  (Node.descendantTags root).filter (matchesNode tag filt)

/-! ### Effects: logging, exceptions, the network -/

/-- One record emitted through the `logging` module. -/
inductive LogEntry where
  | exceptionWithStack (msg : String) : LogEntry
  | errorWithStack (msg : String) : LogEntry
  | info (msg : String) : LogEntry

/-- A Python exception escaping, or raised inside, the program:
`ParserFindTagException` (from the repository's `exceptions.py`, modelled
here), the bare `Exception('Ничего не нашлось')` of `latest_versions`,
`NameError` on the unassigned `section_status`, `AttributeError` on
`None.text`, `KeyError` on a missing dictionary/attribute key,
`IndexError` on `[0]` of an empty list, and `RequestException` escaping a
raw `session.get`. -/
inductive RunError where
  | tagNotFound (msg : String) : RunError
  | genericLookup (msg : String) : RunError
  | nameErrorSectionStatus : RunError
  | attrErrorNoneResponse : RunError
  | keyError (key : String) : RunError
  | indexError : RunError
  | requestError (url : String) : RunError

/-- A successful HTTP response: `body` models the BeautifulSoup parse of
`response.text`, `content` the raw `response.content` bytes, and
`encoding` the `response.encoding` attribute. -/
structure Response where
  body : Node
  content : String
  encoding : String

/-- The transport layer: `none` models `session.get` raising a
`RequestException` for that URL. -/
abbrev Network := String → Option Response

/-- Model of `utils.get_response`: issue the GET, force the encoding to UTF-8 and
return the response; on a transport failure, log the exception (with
stack info) naming the URL and return `None`. -/
def get_response (net : Network) (url : String) :
    Option Response × List LogEntry :=
  match net url with
  | some r => (some { r with encoding := "utf-8" }, [])
  | none =>
      (none,
       [LogEntry.exceptionWithStack ("Возникла ошибка при загрузке страницы " ++ url)])

/-- Python `repr` of a string (quoting only; escape sequences inside the
value are not modelled). -/
def pyStrRepr (s : String) : String := "'" ++ s ++ "'"

/-- Python `repr` of one `attrs` entry. -/
def reprAttrEntry (p : String × AttrFilter) : String :=
  match p.2 with
  | .exact v => pyStrRepr p.1 ++ ": " ++ pyStrRepr v
  | .endsPdfA4 => pyStrRepr p.1 ++ ": re.compile('.+pdf-a4\\.zip$')"

/-- Python `f'{attrs}'` for the optional `attrs` argument of `find_tag`:
the literal `None` when absent, a dict display otherwise. -/
def reprOptFilter : Option AttrsFilter → String
  | none => "None"
  | some f => "\x7b" ++ String.intercalate ", " (f.map reprAttrEntry) ++ "\x7d"

/-- The message of `utils.find_tag`'s error path. -/
def tagErrMsg (tag : String) (attrs : Option AttrsFilter) : String :=
  "Не найден тег " ++ tag ++ " " ++ reprOptFilter attrs

/-- Model of `utils.find_tag`: search for the first matching descendant; when none
exists, log an error (with stack info) and raise
`ParserFindTagException`. -/
def find_tag (soup : Node) (tag : String) (attrs : Option AttrsFilter) :
    Except RunError Node × List LogEntry :=
  match bsFind soup tag (attrs.getD []) with
  | some t => (Except.ok t, [])
  | none =>
      (Except.error (RunError.tagNotFound (tagErrMsg tag attrs)),
       [LogEntry.errorWithStack (tagErrMsg tag attrs)])

/-! ### Extraction routine: `whats_new` (release-notes listing) -/

/-- A three-column result row. -/
abbrev Row3 := String × String × String

/-- Python `dl.text.replace` of newlines by spaces. -/
def collapseNewlines (s : String) : String :=
  s.map (fun c => if c == '\n' then ' ' else c)

/-- The body of one iteration of the `whats_new` loop over
`sections_by_python`: locate the version link, fetch the linked page
(`ok none` when the fetch fails and the version is skipped), then build
the row from the page's `h1` and first `dl`. -/
def wnProcessSection (net : Network) (whatsNewUrl : String) (sec : Node) :
    Except RunError (Option Row3) × List LogEntry :=
  match find_tag sec "a" none with
  | (Except.error e, lg) => (Except.error e, lg)
  | (Except.ok aTag, lg0) =>
    match attrOf aTag "href" with
    | none => (Except.error (RunError.keyError "href"), lg0)
    | some href =>
      let versionLink := urljoin whatsNewUrl href
      match get_response net versionLink with
      | (none, lg1) => (Except.ok none, lg0 ++ lg1)
      | (some r, lg1) =>
        match find_tag r.body "h1" none with
        | (Except.error e, lg2) => (Except.error e, lg0 ++ lg1 ++ lg2)
        | (Except.ok h1, lg2) =>
          match find_tag r.body "dl" none with
          | (Except.error e, lg3) => (Except.error e, lg0 ++ lg1 ++ lg2 ++ lg3)
          | (Except.ok dl, lg3) =>
              (Except.ok (some (versionLink, h1.innerText,
                  collapseNewlines dl.innerText)),
               lg0 ++ lg1 ++ lg2 ++ lg3)

/-- The `whats_new` loop: accumulate one row per successfully fetched
version, skipping versions whose fetch failed, aborting on any other
error. -/
def wnLoop (net : Network) (whatsNewUrl : String) :
    List Node → List Row3 → List LogEntry →
      Except RunError (List Row3) × List LogEntry
  | [], acc, lg => (Except.ok acc, lg)
  | sec :: rest, acc, lg =>
    match wnProcessSection net whatsNewUrl sec with
    | (Except.error e, lg') => (Except.error e, lg ++ lg')
    | (Except.ok none, lg') => wnLoop net whatsNewUrl rest acc (lg ++ lg')
    | (Except.ok (some row), lg') =>
        wnLoop net whatsNewUrl rest (acc ++ [row]) (lg ++ lg')

/-- The header row of the `whats_new` result. -/
def wnHeader : Row3 := ("Ссылка на статью", "Заголовок", "Редактор, Автор")

/-- Model of `main.whats_new`: fetch the what's-new index (`ok none` when that
fetch fails), locate the `toctree` list, and build one row per reachable
version page. -/
def whats_new (net : Network) (mainDocUrl : String) :
    Except RunError (Option (List Row3)) × List LogEntry :=
  let whatsNewUrl := urljoin mainDocUrl "whatsnew/"
  match get_response net whatsNewUrl with
  | (none, lg) => (Except.ok none, lg)
  | (some r, lg) =>
    match find_tag r.body "section" (some [("id", AttrFilter.exact "what-s-new-in-python")]) with
    | (Except.error e, lg1) => (Except.error e, lg ++ lg1)
    | (Except.ok mainDiv, lg1) =>
      match find_tag mainDiv "div" (some [("class", AttrFilter.exact "toctree-wrapper")]) with
      | (Except.error e, lg2) => (Except.error e, lg ++ lg1 ++ lg2)
      | (Except.ok divWithUl, lg2) =>
        let sectionsByPython :=
          bsFindAll divWithUl "li" [("class", AttrFilter.exact "toctree-l1")]
        match wnLoop net whatsNewUrl sectionsByPython [wnHeader] (lg ++ lg1 ++ lg2) with
        | (Except.error e, lg') => (Except.error e, lg')
        | (Except.ok rows, lg') => (Except.ok (some rows), lg')

/-! ### Extraction routine: `latest_versions` -/

/-- Remove a literal prefix, returning the remainder on success. -/
def stripPrefixQ (hay pre : List Char) : Option (List Char) :=
  if hasPrefixL hay pre then some (hay.drop pre.length) else none

/-- Model of the pattern
`r'Python (?P<version>\d\.\d+) \((?P<status>.*)\)'` matched at the head of
the input: the greedy `(.*)` captures up to the last `)` on the same
line. -/
def lvMatchHere (cs : List Char) : Option (String × String) :=
  match stripPrefixQ cs "Python ".data with
  | none => none
  | some r1 =>
    match r1 with
    | [] => none
    | d1 :: rest1 =>
      if d1.isDigit then
        match rest1 with
        | '.' :: rest2 =>
          let ds := rest2.takeWhile Char.isDigit
          let rest3 := rest2.dropWhile Char.isDigit
          if ds.isEmpty then none
          else
            match stripPrefixQ rest3 " (".data with
            | none => none
            | some rest4 =>
              let line := rest4.takeWhile (fun c => !(c == '\n'))
              if line.contains ')' then
                some (String.mk (d1 :: '.' :: ds),
                  String.mk
                    ((line.reverse.dropWhile (fun c => !(c == ')'))).reverse.dropLast))
              else none
        | _ => none
      else none

/-- Model of `re.search` with the version/status pattern: try every start
position, left to right. -/
def lvSearch : List Char → Option (String × String)
  | [] => none
  | c :: rest =>
    match lvMatchHere (c :: rest) with
    | some r => some r
    | none => lvSearch rest

/-- The `latest_versions` loop over the links of the chosen list:
`a_tag['href']` (a `KeyError` when absent), then the regex split of the
visible text, falling back to `(text, '')`. -/
def lvLoop : List Node → List Row3 → Except RunError (List Row3)
  | [], acc => Except.ok acc
  | a :: rest, acc =>
    match attrOf a "href" with
    | none => Except.error (RunError.keyError "href")
    | some link =>
      match lvSearch (Node.innerText a).data with
      | some (v, st) => lvLoop rest (acc ++ [(link, v, st)])
      | none => lvLoop rest (acc ++ [(link, Node.innerText a, "")])

/-- The header row of the `latest_versions` result. -/
def lvHeader : Row3 := ("Ссылка на документацию", "Версия", "Статус")

/-- Model of `main.latest_versions`: fetch the documentation root (`ok none` when
unreachable), locate the sidebar, scan its `ul` lists for the first one
whose text contains `All versions` — raising the bare
`Exception('Ничего не нашлось')`, without logging, when none does — and
build one row per link of that list. -/
def latest_versions (net : Network) (mainDocUrl : String) :
    Except RunError (Option (List Row3)) × List LogEntry :=
  match get_response net mainDocUrl with
  | (none, lg) => (Except.ok none, lg)
  | (some r, lg) =>
    match find_tag r.body "div" (some [("class", AttrFilter.exact "sphinxsidebarwrapper")]) with
    | (Except.error e, lg1) => (Except.error e, lg ++ lg1)
    | (Except.ok sidebar, lg1) =>
      let ulTags := bsFindAll sidebar "ul" []
      match ulTags.find? (fun ul => strContains ul.innerText "All versions") with
      | none => (Except.error (RunError.genericLookup "Ничего не нашлось"), lg ++ lg1)
      | some ul =>
        match lvLoop (bsFindAll ul "a" []) [lvHeader] with
        | Except.error e => (Except.error e, lg ++ lg1)
        | Except.ok rows => (Except.ok (some rows), lg ++ lg1)

/-! ### Extraction routine: `download` -/

/-- Model of `main.download`: fetch the downloads page (`ok none` when
unreachable), locate the main region, the `docutils` table and the first
link whose href matches the `pdf-a4.zip` pattern, resolve the archive
URL, then issue a *raw* `session.get` — whose transport failure is NOT
caught and escapes as a `RequestException` — and "write" the file, which
is modelled by returning `some (filename, bytes)`. -/
def download (net : Network) (mainDocUrl : String) :
    Except RunError (Option (String × String)) × List LogEntry :=
  let downloadsUrl := urljoin mainDocUrl "download.html"
  match get_response net downloadsUrl with
  | (none, lg) => (Except.ok none, lg)
  | (some r, lg) =>
    match find_tag r.body "div" (some [("role", AttrFilter.exact "main")]) with
    | (Except.error e, lg1) => (Except.error e, lg ++ lg1)
    | (Except.ok mainTag, lg1) =>
      match find_tag mainTag "table" (some [("class", AttrFilter.exact "docutils")]) with
      | (Except.error e, lg2) => (Except.error e, lg ++ lg1 ++ lg2)
      | (Except.ok tableTag, lg2) =>
        match find_tag tableTag "a" (some [("href", AttrFilter.endsPdfA4)]) with
        | (Except.error e, lg3) => (Except.error e, lg ++ lg1 ++ lg2 ++ lg3)
        | (Except.ok pdfA4Tag, lg3) =>
          match attrOf pdfA4Tag "href" with
          | none => (Except.error (RunError.keyError "href"), lg ++ lg1 ++ lg2 ++ lg3)
          | some pdfA4Link =>
            let archiveUrl := urljoin downloadsUrl pdfA4Link
            let filename := lastSegment archiveUrl
            match net archiveUrl with
            | none =>
                (Except.error (RunError.requestError archiveUrl),
                 lg ++ lg1 ++ lg2 ++ lg3)
            | some resp =>
                (Except.ok (some (filename, resp.content)),
                 lg ++ lg1 ++ lg2 ++ lg3 ++
                   [LogEntry.info
                     ("Архив был загружен и сохранён: downloads/" ++ filename)])

/-! ### Extraction routine: `pep` (status statistics) -/

/-- Python `table_text.split` composition of line 219 — the first
whitespace-delimited token after the *last* occurrence of `Status:` (the
first token of the whole text when the marker is absent); an `IndexError`
when that portion has no token at all. -/
def extractStatus (t : String) : Except RunError String :=
  match pyTokens (pyLastSplitTail "Status:".data t.data) with
  | [] => Except.error RunError.indexError
  | w :: _ => Except.ok (String.mk w)

/-- Python `f'{t}'` for a tuple of strings (a one-element tuple carries
the trailing comma). -/
def pyTupleRepr : List String → String
  | [x] => "(" ++ pyStrRepr x ++ ",)"
  | xs => "(" ++ String.intercalate ", " (xs.map pyStrRepr) ++ ")"

/-- The informational mismatch message of the `pep` routine. -/
def mismatchMsg (fullHref pageStatus : String) (sectionStatus : List String) : String :=
  "Статус в карточке \"" ++ fullHref ++ "\" отображен как \"" ++ pageStatus ++
    "\", что не соотносится с " ++ pyTupleRepr sectionStatus

/-- Python `Counter` increment on an insertion-ordered association list (the
iteration order of a Python `dict`/`Counter`). -/
def counterIncr (c : List (List String × Nat)) (key : List String) :
    List (List String × Nat) :=
  match c with
  | [] => [(key, 1)]
  | (k, v) :: rest =>
      if k = key then (k, v + 1) :: rest else (k, v) :: counterIncr rest key

/-- The mutable state of the `pep` routine: the status tally, the sticky
`section_status` variable (`none` models "not yet assigned", whose use
raises a `NameError`), the per-subsection `cached_href` set (an
insertion-ordered list), a trace of the hrefs for which a detail-page
fetch was issued, and the log. -/
structure PepSt where
  counter : List (List String × Nat)
  sectionStatus : Option (List String)
  cachedHref : List String
  fetched : List String
  log : List LogEntry

/-- The `EXPECTED_STATUS` table of `constants.py` (not among the sources):
per the spec, a static mapping from a one-letter abbreviation to one or
more canonical status labels, passed in as a parameter. -/
abbrev ExpTable := String → Option (List String)

/-- The `if td.abbr:` half of the `pep` cell loop: translate the
abbreviation (first character stripped) through `EXPECTED_STATUS` — a
`KeyError` when the code is unknown — into the sticky
`section_status`. -/
def abbrStep (exp : ExpTable) (st : PepSt) (td : Node) :
    Except (RunError × PepSt) PepSt :=
  match bsFind td "abbr" [] with
  | none => Except.ok st
  | some ab =>
    let code := (Node.innerText ab).drop 1
    match exp code with
    | none => Except.error (RunError.keyError code, st)
    | some labels => Except.ok { st with sectionStatus := some labels }

/-- The `if td.a and td.a['href'] not in cached_href:` half of the `pep`
cell loop: dedup on the href, fetch the detail page (the missing `None`
check makes a failed fetch an `AttributeError`), extract the page status,
and either bump the tally or log the informational mismatch. -/
def linkStep (net : Network) (pepUrl : String) (st : PepSt) (td : Node) :
    Except (RunError × PepSt) PepSt :=
  match bsFind td "a" [] with
  | none => Except.ok st
  | some aTag =>
    match attrOf aTag "href" with
    | none => Except.error (RunError.keyError "href", st)
    | some href =>
      if st.cachedHref.contains href then Except.ok st
      else
        let st2 := { st with
          cachedHref := st.cachedHref ++ [href],
          fetched := st.fetched ++ [href] }
        let fullHref := urljoin pepUrl href
        match get_response net fullHref with
        | (none, lg) =>
            Except.error (RunError.attrErrorNoneResponse,
              { st2 with log := st2.log ++ lg })
        | (some r, lg) =>
          let st3 := { st2 with log := st2.log ++ lg }
          match find_tag r.body "dl" none with
          | (Except.error e, lg2) =>
              Except.error (e, { st3 with log := st3.log ++ lg2 })
          | (Except.ok dl, lg2) =>
            let st4 := { st3 with log := st3.log ++ lg2 }
            match extractStatus (Node.innerText dl) with
            | Except.error e => Except.error (e, st4)
            | Except.ok pageStatus =>
              match st4.sectionStatus with
              | none => Except.error (RunError.nameErrorSectionStatus, st4)
              | some labels =>
                if labels.contains pageStatus then
                  Except.ok { st4 with counter := counterIncr st4.counter labels }
                else
                  Except.ok { st4 with
                    log := st4.log ++
                      [LogEntry.info (mismatchMsg fullHref pageStatus labels)] }

/-- One table cell of the `pep` loop: the abbreviation step, then the
link step. -/
def processTd (net : Network) (pepUrl : String) (exp : ExpTable)
    (st : PepSt) (td : Node) : Except (RunError × PepSt) PepSt :=
  match abbrStep exp st td with
  | Except.error e => Except.error e
  | Except.ok st1 => linkStep net pepUrl st1 td

/-- Fold `processTd` over the cells of one subsection's table. -/
def processTds (net : Network) (pepUrl : String) (exp : ExpTable) :
    PepSt → List Node → Except (RunError × PepSt) PepSt
  | st, [] => Except.ok st
  | st, td :: rest =>
    match processTd net pepUrl exp st td with
    | Except.error e => Except.error e
    | Except.ok st' => processTds net pepUrl exp st' rest

/-- One subsection of the PEP index: a fresh empty `cached_href` is
created before the table check; a subsection without a table is skipped;
after its cells are processed `cached_href.clear()` empties the set. -/
def processSection (net : Network) (pepUrl : String) (exp : ExpTable)
    (st : PepSt) (sec : Node) : Except (RunError × PepSt) PepSt :=
  let st0 := { st with cachedHref := [] }
  match bsFind sec "table" [] with
  | none => Except.ok st0
  | some table =>
    match processTds net pepUrl exp st0 (bsFindAll table "td" []) with
    | Except.error e => Except.error e
    | Except.ok st' => Except.ok { st' with cachedHref := [] }

/-- Fold over every subsection of `index-by-category`. -/
def processSections (net : Network) (pepUrl : String) (exp : ExpTable) :
    PepSt → List Node → Except (RunError × PepSt) PepSt
  | st, [] => Except.ok st
  | st, sec :: rest =>
    match processSection net pepUrl exp st sec with
    | Except.error e => Except.error e
    | Except.ok st' => processSections net pepUrl exp st' rest

/-- A heterogeneous result cell (the `pep` rows mix strings and ints). -/
inductive PyVal where
  | str (s : String) : PyVal
  | int (n : Nat) : PyVal

/-- Model of `main.pep`: fetch the index (`ok none` when unreachable), walk every
subsection tallying detail-page statuses, then render the tally after
the `('Статус', 'Количество')` header, joining multi-label keys with
`', '`. -/
def pep (net : Network) (pepUrl : String) (exp : ExpTable) :
    Except RunError (Option (List (PyVal × PyVal))) × List LogEntry :=
  match get_response net pepUrl with
  | (none, lg) => (Except.ok none, lg)
  | (some r, lg) =>
    match find_tag r.body "section" (some [("id", AttrFilter.exact "index-by-category")]) with
    | (Except.error e, lg1) => (Except.error e, lg ++ lg1)
    | (Except.ok bigSection, lg1) =>
      let sections := bsFindAll bigSection "section" []
      let st0 : PepSt := ⟨[], none, [], [], lg ++ lg1⟩
      match processSections net pepUrl exp st0 sections with
      | Except.error (e, st) => (Except.error e, st.log)
      | Except.ok st =>
          (Except.ok (some
            ((PyVal.str "Статус", PyVal.str "Количество") ::
              st.counter.map (fun p =>
                (PyVal.str (String.intercalate ", " p.1), PyVal.int p.2)))),
           st.log)

/-! ### Derived observations used by the statements -/

/-- The total of all tally counts. -/
def counterTotal (c : List (List String × Nat)) : Nat :=
  (c.map (fun p => p.2)).sum

/-- The href of a table cell's first link, when both exist. -/
def tdHref (td : Node) : Option String :=
  match bsFind td "a" [] with
  | none => none
  | some aTag => attrOf aTag "href"

/-- The cells the `pep` loop visits inside one subsection: none when the
subsection has no table. -/
def tdsOfSection (sec : Node) : List Node :=
  match bsFind sec "table" [] with
  | none => []
  | some table => bsFindAll table "td" []

/-- A `whats_new` list item is benign when it carries a link and the
linked page either fails to fetch (it is then skipped) or parses with an
`h1` and a `dl`. -/
def wnSectionOkB (net : Network) (whatsNewUrl : String) (sec : Node) : Bool :=
  match bsFind sec "a" [] with
  | none => false
  | some aTag =>
    match attrOf aTag "href" with
    | none => false
    | some href =>
      match net (urljoin whatsNewUrl href) with
      | none => true
      | some r => (bsFind r.body "h1" []).isSome && (bsFind r.body "dl" []).isSome

/-- Whether a `whats_new` list item's version page fetches successfully. -/
def wnFetchOk (net : Network) (whatsNewUrl : String) (sec : Node) : Bool :=
  match bsFind sec "a" [] with
  | none => false
  | some aTag =>
    match attrOf aTag "href" with
    | none => false
    | some href => (net (urljoin whatsNewUrl href)).isSome

/-- The row `whats_new` contributes for one list item: `none` when the
version page is unreachable (the item is skipped). -/
def wnRowOf (net : Network) (whatsNewUrl : String) (sec : Node) : Option Row3 :=
  match bsFind sec "a" [] with
  | none => none
  | some aTag =>
    match attrOf aTag "href" with
    | none => none
    | some href =>
      match net (urljoin whatsNewUrl href) with
      | none => none
      | some r =>
        match bsFind r.body "h1" [], bsFind r.body "dl" [] with
        | some h1, some dl =>
            some (urljoin whatsNewUrl href, h1.innerText, collapseNewlines dl.innerText)
        | _, _ => none

/-! ### Concrete documents and networks for the witnesses -/

/-- An `EXPECTED_STATUS` sample: `A` maps to two canonical labels. -/
def expA : ExpTable := fun c => if c == "A" then some ["Active", "Accepted"] else none

/-- A cell carrying an abbreviation and a link to `pep-0404`. -/
def c1Td : Node :=
  Node.elem "td" []
    [Node.elem "abbr" [] [Node.text "PA"],
     Node.elem "a" [("href", "pep-0404")] [Node.text "404"]]

/-- PEP index whose only cell carries both an abbreviation and a link. -/
def c1Index : Node :=
  Node.elem "html" []
    [Node.elem "section" [("id", "index-by-category")]
      [Node.elem "section" [] [Node.elem "table" [] [c1Td]]]]

/-- A network on which the PEP index is reachable but the detail page is
not. -/
def c1Net : Network := fun url =>
  if url == "https://peps.python.org/" then some ⟨c1Index, "", "utf-8"⟩ else none

/-- Every abbreviation code is accepted with the single label
`Active`. -/
def expAll : ExpTable := fun _ => some ["Active"]

/-- A cell carrying a link but no abbreviation. -/
def c2Td : Node :=
  Node.elem "td" [] [Node.elem "a" [("href", "pep-9999")] [Node.text "9999"]]

/-- A subsection whose only cell is `c2Td`. -/
def c2Sec : Node :=
  Node.elem "section" [] [Node.elem "table" [] [c2Td]]

/-- PEP index whose first (and only) cell carries a link and no
abbreviation at all. -/
def c2Index : Node :=
  Node.elem "html" []
    [Node.elem "section" [("id", "index-by-category")] [c2Sec]]

/-- A detail page whose first `dl` reports `Status: Active`. -/
def activeDetail : Node :=
  Node.elem "html" [] [Node.elem "dl" [] [Node.text "Status: Active"]]

/-- A network serving `c2Index` and its detail page. -/
def c2Net : Network := fun url =>
  if url == "https://peps.python.org/" then some ⟨c2Index, "", "utf-8"⟩
  else if url == "https://peps.python.org/pep-9999" then some ⟨activeDetail, "", "utf-8"⟩
  else none

/-- A subsection whose table links the same href from two cells. -/
def c3Sec : Node :=
  Node.elem "section" []
    [Node.elem "table" []
      [Node.elem "td" [] [Node.elem "abbr" [] [Node.text "PA"]],
       Node.elem "td" [] [Node.elem "a" [("href", "pep-0001")] [Node.text "1"]],
       Node.elem "td" [] [Node.elem "a" [("href", "pep-0001")] [Node.text "1"]]]]

/-- A network serving only the `pep-0001` detail page. -/
def c3Net : Network := fun url =>
  if url == "https://peps.python.org/pep-0001" then some ⟨activeDetail, "", "utf-8"⟩
  else none

/-- An incoming state with a stale non-empty `cached_href`. -/
def c3St : PepSt := ⟨[], none, ["stale-href"], [], []⟩

/-- A detail page whose first `dl` reports `Status: Withdrawn`. -/
def c4Detail : Node :=
  Node.elem "html" [] [Node.elem "dl" [] [Node.text "Status: Withdrawn"]]

/-- A cell carrying an abbreviation mapping to `{"Active"}` and a link to
the withdrawn detail page. -/
def c4Td : Node :=
  Node.elem "td" []
    [Node.elem "abbr" [] [Node.text "PA"],
     Node.elem "a" [("href", "pep-0042")] [Node.text "42"]]

/-- A network serving only the withdrawn detail page. -/
def c4Net : Network := fun url =>
  if url == "https://peps.python.org/pep-0042" then some ⟨c4Detail, "", "utf-8"⟩
  else none

/-- Table where `A` maps to the single canonical label `Active`. -/
def c4Exp : ExpTable := fun c => if c == "A" then some ["Active"] else none

/-- A release-notes page with an `h1` and a `dl`. -/
def c7Page : Node :=
  Node.elem "html" []
    [Node.elem "h1" [] [Node.text "What's New In Python 3.11"],
     Node.elem "dl" [] [Node.text "Editor: A\nAuthor: B"]]

/-- A list item linking the reachable `3.11` page. -/
def c7Li1 : Node :=
  Node.elem "li" [("class", "toctree-l1")]
    [Node.elem "a" [("href", "3.11.html")] [Node.text "3.11"]]

/-- A list item linking the unreachable `3.10` page. -/
def c7Li2 : Node :=
  Node.elem "li" [("class", "toctree-l1")]
    [Node.elem "a" [("href", "3.10.html")] [Node.text "3.10"]]

/-- A what's-new index with two version links. -/
def c7Index : Node :=
  Node.elem "html" []
    [Node.elem "section" [("id", "what-s-new-in-python")]
      [Node.elem "div" [("class", "toctree-wrapper")] [c7Li1, c7Li2]]]

/-- A network on which the index and the `3.11` page resolve but the
`3.10` page does not. -/
def c7Net : Network := fun url =>
  if url == "https://docs.python.org/3/whatsnew/" then some ⟨c7Index, "", "utf-8"⟩
  else if url == "https://docs.python.org/3/whatsnew/3.11.html" then some ⟨c7Page, "", "utf-8"⟩
  else none

/-- A downloads page whose only archive link carries a query string after
`pdf-a4.zip`. -/
def c8BadPage : Node :=
  Node.elem "html" []
    [Node.elem "div" [("role", "main")]
      [Node.elem "table" [("class", "docutils")]
        [Node.elem "a" [("href", "python-docs-pdf-a4.zip?download=1")] [Node.text "PDF"]]]]

/-- A network serving the query-string downloads page. -/
def c8BadNet : Network := fun url =>
  if url == "https://docs.python.org/3/download.html" then some ⟨c8BadPage, "", "utf-8"⟩
  else none

/-- A well-formed downloads page. -/
def c8Page : Node :=
  Node.elem "html" []
    [Node.elem "div" [("role", "main")]
      [Node.elem "table" [("class", "docutils")]
        [Node.elem "a" [("href", "archives/python-3.11-docs-pdf-a4.zip")] [Node.text "PDF"]]]]

/-- A network serving the downloads page and the archive bytes. -/
def c8Net : Network := fun url =>
  if url == "https://docs.python.org/3/download.html" then some ⟨c8Page, "", "utf-8"⟩
  else if url == "https://docs.python.org/3/archives/python-3.11-docs-pdf-a4.zip" then
    some ⟨Node.text "", "PDFBYTES", "binary"⟩
  else none

/-- A network serving the well-formed downloads page but not the archive
itself. -/
def c1DlNet : Network := fun url =>
  if url == "https://docs.python.org/3/download.html" then some ⟨c8Page, "", "utf-8"⟩
  else none

/-- A sidebar whose lists never mention `All versions`. -/
def c9Sidebar : Node :=
  Node.elem "div" [("class", "sphinxsidebarwrapper")]
    [Node.elem "ul" [] [Node.text "Docs by version"],
     Node.elem "ul" [] [Node.text "Other resources"]]

/-- A documentation root whose sidebar lists never mention
`All versions`. -/
def c9Doc : Node :=
  Node.elem "html" [] [c9Sidebar]

/-- A network serving only that root page. -/
def c9Net : Network := fun url =>
  if url == "https://docs.python.org/3/" then some ⟨c9Doc, "", "utf-8"⟩ else none

/-! ### Helper lemmas -/

/-- A successful `find?` splits its list at the first satisfying
element. -/
theorem findFirstSplit {α : Type} (p : α → Bool) :
    ∀ (l : List α) (a : α), l.find? p = some a →
      ∃ pre post, l = pre ++ a :: post ∧
        (∀ x ∈ pre, p x = false) ∧ p a = true := by
  intro l
  induction l with
  | nil => intro a h; simp [List.find?] at h
  | cons b t ih =>
    intro a h
    by_cases hb : p b
    · refine ⟨[], t, ?_, ?_, ?_⟩
      · simp only [List.nil_append, List.cons.injEq, and_true]
        have := @List.find?_cons _ b t p
        rw [this, hb] at h
        exact Option.some.inj h
      · intro x hx; simp at hx
      · have := @List.find?_cons _ b t p
        rw [this, hb] at h
        cases h; exact hb
    · have hb' : p b = false := by simp [hb]
      have := @List.find?_cons _ b t p
      rw [this, hb'] at h
      obtain ⟨pre, post, rfl, hpre, hpa⟩ := ih a h
      exact ⟨b :: pre, post, rfl, by
        intro x hx
        rcases List.mem_cons.mp hx with h1 | h1
        · exact h1 ▸ hb'
        · exact hpre x h1, hpa⟩

/-- Running `pySplitFuel` with no separator occurrence and enough fuel yields a
single piece. -/
theorem pySplitFuelNoOcc (sep : List Char) :
    ∀ (cs : List Char) (fuel : Nat) (acc : List Char),
      containsL cs sep = false → cs.length ≤ fuel →
      pySplitFuel sep fuel cs acc = [acc.reverse ++ cs] := by
  intro cs
  induction cs with
  | nil =>
    intro fuel acc _ _
    cases fuel <;> simp [pySplitFuel]
  | cons c rest ih =>
    intro fuel acc hno hlen
    cases fuel with
    | zero => simp at hlen
    | succ f =>
      have hsplit : hasPrefixL (c :: rest) sep = false ∧ containsL rest sep = false := by
        simp only [containsL, Bool.or_eq_false_iff] at hno
        exact hno
      have hcond : (hasPrefixL (c :: rest) sep && !sep.isEmpty) = false := by
        simp [hsplit.1]
      show pySplitFuel sep (f + 1) (c :: rest) acc = _
      rw [pySplitFuel, if_neg (by simp [hcond])]
      have : rest.length ≤ f := by
        simp only [List.length_cons] at hlen; omega
      rw [ih f (c :: acc) hsplit.2 this]
      simp

/-- When the separator does not occur, Python's `split` keeps the whole
string as its only (hence last) piece. -/
theorem pyLastSplitTailNoOcc (sep cs : List Char) (h : containsL cs sep = false) :
    pyLastSplitTail sep cs = cs := by
  unfold pyLastSplitTail pySplit
  rw [pySplitFuelNoOcc sep cs cs.length [] h (le_refl _)]
  rfl

/-- Incrementing a tally raises its total by exactly one. -/
theorem counterIncrTotal (c : List (List String × Nat)) (key : List String) :
    counterTotal (counterIncr c key) = counterTotal c + 1 := by
  induction c with
  | nil => simp [counterIncr, counterTotal]
  | cons p rest ih =>
    obtain ⟨k, v⟩ := p
    by_cases hk : k = key
    · simp [counterIncr, hk, counterTotal]; omega
    · simp only [counterIncr, if_neg hk]
      simp only [counterTotal, List.map_cons, List.sum_cons] at ih ⊢
      omega

/-- A failed `find?` rejects every element. -/
theorem findNoneAll {α : Type} (p : α → Bool) :
    ∀ l : List α, l.find? p = none → ∀ x ∈ l, p x = false := by
  intro l
  induction l with
  | nil => intro _ x hx; simp at hx
  | cons b t ih =>
    intro h x hx
    rw [List.find?_cons] at h
    cases hb : p b with
    | true => rw [hb] at h; simp at h
    | false =>
      rw [hb] at h
      rcases List.mem_cons.mp hx with h1 | h1
      · exact h1 ▸ hb
      · exact ih h x h1

/-! ### Claim C5 -/

/-- C5: for every URL whose GET fails at the transport layer, the Fetcher
returns the absent outcome (it never raises — `get_response` is total),
and a diagnostic log entry with stack context naming the failing URL is
recorded. -/
theorem c5_get_response_absorbs_failure (net : Network) (url : String)
    (h : net url = none) :
    get_response net url =
        (none,
         [LogEntry.exceptionWithStack ("Возникла ошибка при загрузке страницы " ++ url)]) ∧
      ∃ s1 s2, "Возникла ошибка при загрузке страницы " ++ url = s1 ++ url ++ s2 := by
  refine ⟨by simp [get_response, h], "Возникла ошибка при загрузке страницы ", "", by simp⟩

/-- C5 witness: the failure path at a concrete dead network. -/
theorem c5_get_response_absorbs_failure_witness :
    get_response (fun _ => none) "https://example.org/x" =
        (none,
         [LogEntry.exceptionWithStack
           ("Возникла ошибка при загрузке страницы " ++ "https://example.org/x")]) ∧
      ∃ s1 s2, "Возникла ошибка при загрузке страницы " ++ "https://example.org/x" =
        s1 ++ "https://example.org/x" ++ s2 :=
  c5_get_response_absorbs_failure (fun _ => none) "https://example.org/x" rfl

/-! ### Claim C6 -/

/-- C6: for every parsed document with a descendant matching the tag name
and attribute constraints, the Tag Locator returns the first such node in
document order (logging nothing); for every document without a match it
fails with the `TagNotFound` condition whose message names the missing
tag and filter, after logging an error with stack context. -/
theorem c6_find_tag_first_or_fails (soup : Node) (tag : String) (attrs : Option AttrsFilter) :
    (∃ pre post d, Node.descendantTags soup = pre ++ d :: post ∧
        (∀ x ∈ pre, matchesNode tag (attrs.getD []) x = false) ∧
        matchesNode tag (attrs.getD []) d = true ∧
        find_tag soup tag attrs = (Except.ok d, [])) ∨
      ((∀ d ∈ Node.descendantTags soup, matchesNode tag (attrs.getD []) d = false) ∧
        find_tag soup tag attrs =
          (Except.error (RunError.tagNotFound (tagErrMsg tag attrs)),
           [LogEntry.errorWithStack (tagErrMsg tag attrs)]) ∧
        ∃ s1 s2, tagErrMsg tag attrs = s1 ++ tag ++ s2) := by
  cases h : bsFind soup tag (attrs.getD []) with
  | some d =>
    left
    obtain ⟨pre, post, heq, hpre, hd⟩ := findFirstSplit _ _ _ h
    exact ⟨pre, post, d, heq, hpre, hd, by simp [find_tag, h]⟩
  | none =>
    right
    refine ⟨fun d hd => findNoneAll _ _ h d hd, by simp [find_tag, h],
      "Не найден тег ", " " ++ reprOptFilter attrs, ?_⟩
    simp [tagErrMsg, String.append_assoc]

/-! ### Claim C10 -/

/-- C10 counterexample: the definition-list text `" "` is non-empty and
does not contain the marker `Status:`, yet the status extraction of the
`pep` routine raises an `IndexError` (`.split()[0]` of a whitespace-only
string) instead of producing a token. -/
theorem c10_whitespace_counterexample :
    ((" " : String) ≠ "" ∧ strContains " " "Status:" = false) ∧
      extractStatus " " = Except.error RunError.indexError :=
  ⟨⟨by decide, rfl⟩, rfl⟩

/-- C10 amended: whenever the portion of the definition-list text after
the last `Status:` occurrence (the entire text when the marker is absent)
has at least one whitespace-delimited token, the extraction succeeds with
the first such token; in particular with no marker the first token of the
entire text is used, and with several markers the text after the last one
is used (the `IndexError` only arises when that portion is all
whitespace). -/
theorem c10_extract_status_amended (t : String) (w : List Char) (rest : List (List Char))
    (h : pyTokens (pyLastSplitTail "Status:".data t.data) = w :: rest) :
    extractStatus t = Except.ok (String.mk w) ∧
      (strContains t "Status:" = false →
        pyLastSplitTail "Status:".data t.data = t.data) := by
  constructor
  · unfold extractStatus
    rw [h]
  · intro hnc
    exact pyLastSplitTailNoOcc "Status:".data t.data (by simpa [strContains] using hnc)

/-- C10 witness: a marker-free text whose first token becomes the
status. -/
theorem c10_extract_status_amended_witness :
    extractStatus "Draft stuff" = Except.ok (String.mk "Draft".data) ∧
      (strContains "Draft stuff" "Status:" = false →
        pyLastSplitTail "Status:".data "Draft stuff".data = "Draft stuff".data) :=
  c10_extract_status_amended "Draft stuff" "Draft".data ["stuff".data] rfl

/-! ### Claim C2 -/

/-- C2: on an input whose first table cell carries a link while no
abbreviation cell has yet occurred in that subsection, the sticky
`section_status` is unassigned at the membership check and the `pep`
routine aborts with the undefined-variable (`NameError`) fault instead
of producing a result. -/
theorem c2_link_before_abbr_name_fault :
    (tdsOfSection c2Sec = [c2Td] ∧ bsFind c2Td "abbr" [] = none ∧
      (bsFind c2Td "a" []).isSome = true) ∧
    pep c2Net "https://peps.python.org/" expAll =
      (Except.error RunError.nameErrorSectionStatus, []) :=
  ⟨⟨rfl, rfl, rfl⟩, rfl⟩

/-! ### Claim C9 -/

/-- C9 counterexample: on a sidebar none of whose lists mentions
`All versions`, `latest_versions` does raise the generic lookup error,
but the log is empty — no entry with call-stack context is recorded at
the raise site, contrary to the claim. -/
theorem c9_no_log_counterexample :
    (∀ ul ∈ bsFindAll c9Sidebar "ul" [],
        strContains (Node.innerText ul) "All versions" = false) ∧
    latest_versions c9Net "https://docs.python.org/3/" =
      (Except.error (RunError.genericLookup "Ничего не нашлось"), []) := by
  exact ⟨by decide, rfl⟩

/-- C9 amended: whenever the root page fetches, the sidebar is located
and none of its unordered lists contains the literal marker
`All versions`, the routine fails fatally with the generic lookup error
`Exception('Ничего не нашлось')`, aborting the mode with no fallback —
and no log entry is recorded at the raise site (the full-call-stack
logging applies to `TagNotFound` failures, not to this one). -/
theorem c9_latest_versions_no_marker_amended (net : Network) (mainDocUrl : String)
    (r : Response) (sidebar : Node)
    (h1 : net mainDocUrl = some r)
    (h2 : bsFind r.body "div" [("class", AttrFilter.exact "sphinxsidebarwrapper")] = some sidebar)
    (h3 : ∀ ul ∈ bsFindAll sidebar "ul" [],
        strContains (Node.innerText ul) "All versions" = false) :
    latest_versions net mainDocUrl =
      (Except.error (RunError.genericLookup "Ничего не нашлось"), []) := by
  have hfind : (bsFindAll sidebar "ul" []).find?
      (fun ul => strContains ul.innerText "All versions") = none := by
    rw [List.find?_eq_none]
    intro x hx
    simp [h3 x hx]
  simp [latest_versions, get_response, find_tag, h1, h2, hfind]

/-- C9 witness: the amended behaviour at the concrete marker-free
sidebar. -/
theorem c9_latest_versions_no_marker_amended_witness :
    latest_versions c9Net "https://docs.python.org/3/" =
      (Except.error (RunError.genericLookup "Ничего не нашлось"), []) :=
  c9_latest_versions_no_marker_amended c9Net "https://docs.python.org/3/"
    ⟨c9Doc, "", "utf-8"⟩ c9Sidebar rfl rfl (by decide)

/-! ### Claim C1 -/

/-- C1 counterexample: on `c1Net` the PEP index is reachable but the
detail page `pep-0404` is not; instead of skipping that PEP, the `pep`
routine aborts with the `AttributeError` fault of reading `.text` on the
absent response (`get_response`'s `None`), after the fetch failure has
been logged. -/
theorem c1_pep_detail_not_skipped_counterexample :
    c1Net "https://peps.python.org/pep-0404" = none ∧
    pep c1Net "https://peps.python.org/" expA =
      (Except.error RunError.attrErrorNoneResponse,
       [LogEntry.exceptionWithStack
         "Возникла ошибка при загрузке страницы https://peps.python.org/pep-0404"]) :=
  ⟨rfl, rfl⟩

/-- C1 amended: transport failures on each routine's *initial* page
fetch are recoverable — the routine logs the failure and returns no data
— and in the release-notes routine a failed version-page fetch is logged
and the version skipped; but in the PEP-statistics routine an
unreachable detail page raises an unhandled `AttributeError` (the absent
response's `.text` is accessed without a `None` check), and in the
download routine a transport failure on the archive GET raises an
unhandled `RequestException` (the raw `session.get` is not wrapped by
the Fetcher). -/
theorem c1_transport_failure_handling_amended :
    (∀ (net : Network) (mainDocUrl : String),
      net (urljoin mainDocUrl "whatsnew/") = none →
      whats_new net mainDocUrl =
        (Except.ok none,
         [LogEntry.exceptionWithStack
           ("Возникла ошибка при загрузке страницы " ++ urljoin mainDocUrl "whatsnew/")])) ∧
    (∀ (net : Network) (mainDocUrl : String),
      net mainDocUrl = none →
      latest_versions net mainDocUrl =
        (Except.ok none,
         [LogEntry.exceptionWithStack
           ("Возникла ошибка при загрузке страницы " ++ mainDocUrl)])) ∧
    (∀ (net : Network) (pepUrl : String) (exp : ExpTable),
      net pepUrl = none →
      pep net pepUrl exp =
        (Except.ok none,
         [LogEntry.exceptionWithStack
           ("Возникла ошибка при загрузке страницы " ++ pepUrl)])) ∧
    (∀ (net : Network) (whatsNewUrl : String) (sec aTag : Node) (href : String),
      bsFind sec "a" [] = some aTag →
      attrOf aTag "href" = some href →
      net (urljoin whatsNewUrl href) = none →
      wnProcessSection net whatsNewUrl sec =
        (Except.ok none,
         [LogEntry.exceptionWithStack
           ("Возникла ошибка при загрузке страницы " ++ urljoin whatsNewUrl href)])) ∧
    (∀ (net : Network) (pepUrl : String) (exp : ExpTable) (st st1 : PepSt)
       (td aTag : Node) (href : String),
      abbrStep exp st td = Except.ok st1 →
      bsFind td "a" [] = some aTag →
      attrOf aTag "href" = some href →
      st1.cachedHref.contains href = false →
      net (urljoin pepUrl href) = none →
      processTd net pepUrl exp st td =
        Except.error (RunError.attrErrorNoneResponse,
          { st1 with
              cachedHref := st1.cachedHref ++ [href],
              fetched := st1.fetched ++ [href],
              log := st1.log ++
                [LogEntry.exceptionWithStack
                  ("Возникла ошибка при загрузке страницы " ++ urljoin pepUrl href)] })) ∧
    (∀ (net : Network) (mainDocUrl : String) (r : Response)
       (mainTag tableTag aTag : Node) (link : String),
      net (urljoin mainDocUrl "download.html") = some r →
      bsFind r.body "div" [("role", AttrFilter.exact "main")] = some mainTag →
      bsFind mainTag "table" [("class", AttrFilter.exact "docutils")] = some tableTag →
      bsFind tableTag "a" [("href", AttrFilter.endsPdfA4)] = some aTag →
      attrOf aTag "href" = some link →
      net (urljoin (urljoin mainDocUrl "download.html") link) = none →
      download net mainDocUrl =
        (Except.error
          (RunError.requestError (urljoin (urljoin mainDocUrl "download.html") link)),
         [])) := by
  refine ⟨?_, ?_, ?_, ?_, ?_, ?_⟩
  · intro net mainDocUrl h
    simp [whats_new, get_response, h]
  · intro net mainDocUrl h
    simp [latest_versions, get_response, h]
  · intro net pepUrl exp h
    simp [pep, get_response, h]
  · intro net whatsNewUrl sec aTag href ha hh hn
    simp [wnProcessSection, find_tag, ha, hh, get_response, hn]
  · intro net pepUrl exp st st1 td aTag href habbr ha hh hc hn
    simp [processTd, habbr, linkStep, ha, hh, hc, get_response, hn]
    simpa using hc
  · intro net mainDocUrl r mainTag tableTag aTag link hr hm ht ha hh hn
    simp [download, get_response, find_tag, hr, hm, ht, ha, hh, hn]

/-- C1 witness: the six amended behaviours at concrete inputs. -/
theorem c1_transport_failure_handling_witness :
    whats_new (fun _ => none) "https://docs.python.org/3/" =
      (Except.ok none,
       [LogEntry.exceptionWithStack
         ("Возникла ошибка при загрузке страницы " ++
           urljoin "https://docs.python.org/3/" "whatsnew/")]) ∧
    latest_versions (fun _ => none) "https://docs.python.org/3/" =
      (Except.ok none,
       [LogEntry.exceptionWithStack
         ("Возникла ошибка при загрузке страницы " ++ "https://docs.python.org/3/")]) ∧
    pep (fun _ => none) "https://peps.python.org/" expA =
      (Except.ok none,
       [LogEntry.exceptionWithStack
         ("Возникла ошибка при загрузке страницы " ++ "https://peps.python.org/")]) ∧
    wnProcessSection c7Net "https://docs.python.org/3/whatsnew/" c7Li2 =
      (Except.ok none,
       [LogEntry.exceptionWithStack
         ("Возникла ошибка при загрузке страницы " ++
           urljoin "https://docs.python.org/3/whatsnew/" "3.10.html")]) ∧
    processTd c1Net "https://peps.python.org/" expA ⟨[], none, [], [], []⟩ c1Td =
      Except.error (RunError.attrErrorNoneResponse,
        { counter := [], sectionStatus := some ["Active", "Accepted"],
          cachedHref := ["pep-0404"], fetched := ["pep-0404"],
          log := [LogEntry.exceptionWithStack
            ("Возникла ошибка при загрузке страницы " ++
              urljoin "https://peps.python.org/" "pep-0404")] }) ∧
    download c1DlNet "https://docs.python.org/3/" =
      (Except.error
        (RunError.requestError
          (urljoin (urljoin "https://docs.python.org/3/" "download.html")
            "archives/python-3.11-docs-pdf-a4.zip")),
       []) :=
  ⟨c1_transport_failure_handling_amended.1 (fun _ => none) "https://docs.python.org/3/" rfl,
   c1_transport_failure_handling_amended.2.1 (fun _ => none) "https://docs.python.org/3/" rfl,
   c1_transport_failure_handling_amended.2.2.1 (fun _ => none) "https://peps.python.org/" expA rfl,
   c1_transport_failure_handling_amended.2.2.2.1 c7Net "https://docs.python.org/3/whatsnew/"
     c7Li2 (Node.elem "a" [("href", "3.10.html")] [Node.text "3.10"]) "3.10.html" rfl rfl rfl,
   c1_transport_failure_handling_amended.2.2.2.2.1 c1Net "https://peps.python.org/" expA
     ⟨[], none, [], [], []⟩ ⟨[], some ["Active", "Accepted"], [], [], []⟩ c1Td
     (Node.elem "a" [("href", "pep-0404")] [Node.text "404"]) "pep-0404" rfl rfl rfl rfl rfl,
   c1_transport_failure_handling_amended.2.2.2.2.2 c1DlNet "https://docs.python.org/3/"
     ⟨c8Page, "", "utf-8"⟩
     (Node.elem "div" [("role", "main")]
       [Node.elem "table" [("class", "docutils")]
         [Node.elem "a" [("href", "archives/python-3.11-docs-pdf-a4.zip")] [Node.text "PDF"]]])
     (Node.elem "table" [("class", "docutils")]
       [Node.elem "a" [("href", "archives/python-3.11-docs-pdf-a4.zip")] [Node.text "PDF"]])
     (Node.elem "a" [("href", "archives/python-3.11-docs-pdf-a4.zip")] [Node.text "PDF"])
     "archives/python-3.11-docs-pdf-a4.zip" rfl rfl rfl rfl rfl rfl⟩

/-! ### Claim C4 -/

/-- C4: for every visited detail page whose authoritative status string
is not a member of the current sticky expected-status set, the cell is
processed without error (control flow is unaffected, nothing fatal), no
tally entry is incremented (the resulting state's `counter` is the
incoming one), and an informational log entry is appended whose message
names the detail-page URL, the observed status and the expected set. -/
theorem c4_mismatch_soft_logged (net : Network) (pepUrl : String) (exp : ExpTable)
    (st st1 : PepSt) (td aTag dl : Node) (href pageStatus : String)
    (labels : List String) (r : Response)
    (habbr : abbrStep exp st td = Except.ok st1)
    (hss : st1.sectionStatus = some labels)
    (ha : bsFind td "a" [] = some aTag)
    (hh : attrOf aTag "href" = some href)
    (hc : st1.cachedHref.contains href = false)
    (hn : net (urljoin pepUrl href) = some r)
    (hdl : bsFind r.body "dl" [] = some dl)
    (hps : extractStatus dl.innerText = Except.ok pageStatus)
    (hnm : labels.contains pageStatus = false) :
    processTd net pepUrl exp st td =
      Except.ok { st1 with
        cachedHref := st1.cachedHref ++ [href],
        fetched := st1.fetched ++ [href],
        log := st1.log ++
          [LogEntry.info (mismatchMsg (urljoin pepUrl href) pageStatus labels)] } ∧
    (∃ s1 s2, mismatchMsg (urljoin pepUrl href) pageStatus labels =
      s1 ++ urljoin pepUrl href ++ s2) ∧
    (∃ s1 s2, mismatchMsg (urljoin pepUrl href) pageStatus labels =
      s1 ++ pageStatus ++ s2) ∧
    ∃ s1 s2, mismatchMsg (urljoin pepUrl href) pageStatus labels =
      s1 ++ pyTupleRepr labels ++ s2 := by
  refine ⟨?_, ?_, ?_, ?_⟩
  · have hc' : href ∉ st1.cachedHref := by simpa using hc
    have hnm' : pageStatus ∉ labels := by simpa using hnm
    simp only [processTd, habbr]
    simp [linkStep, ha, hh, get_response, hn, find_tag, hdl, hps, hss, hc', hnm']
  · exact ⟨"Статус в карточке \"",
      "\" отображен как \"" ++ pageStatus ++ "\", что не соотносится с " ++
        pyTupleRepr labels,
      by simp [mismatchMsg, String.append_assoc]⟩
  · exact ⟨"Статус в карточке \"" ++ urljoin pepUrl href ++ "\" отображен как \"",
      "\", что не соотносится с " ++ pyTupleRepr labels,
      by simp [mismatchMsg, String.append_assoc]⟩
  · exact ⟨"Статус в карточке \"" ++ urljoin pepUrl href ++ "\" отображен как \"" ++
      pageStatus ++ "\", что не соотносится с ", "",
      by simp [mismatchMsg, String.append_assoc]⟩

/-- C4 witness: the spec's scenario — a detail page reporting
`Status: Withdrawn` under an abbreviation mapping to `{"Active"}`. -/
theorem c4_mismatch_soft_logged_witness :
    processTd c4Net "https://peps.python.org/" c4Exp ⟨[], none, [], [], []⟩ c4Td =
      Except.ok (⟨[], some ["Active"], ["pep-0042"], ["pep-0042"],
        [LogEntry.info
          (mismatchMsg (urljoin "https://peps.python.org/" "pep-0042") "Withdrawn"
            ["Active"])]⟩ : PepSt) ∧
    (∃ s1 s2, mismatchMsg (urljoin "https://peps.python.org/" "pep-0042") "Withdrawn"
      ["Active"] = s1 ++ urljoin "https://peps.python.org/" "pep-0042" ++ s2) ∧
    (∃ s1 s2, mismatchMsg (urljoin "https://peps.python.org/" "pep-0042") "Withdrawn"
      ["Active"] = s1 ++ "Withdrawn" ++ s2) ∧
    ∃ s1 s2, mismatchMsg (urljoin "https://peps.python.org/" "pep-0042") "Withdrawn"
      ["Active"] = s1 ++ pyTupleRepr ["Active"] ++ s2 :=
  c4_mismatch_soft_logged c4Net "https://peps.python.org/" c4Exp
    ⟨[], none, [], [], []⟩ ⟨[], some ["Active"], [], [], []⟩ c4Td
    (Node.elem "a" [("href", "pep-0042")] [Node.text "42"])
    (Node.elem "dl" [] [Node.text "Status: Withdrawn"])
    "pep-0042" "Withdrawn" ["Active"] ⟨c4Detail, "", "utf-8"⟩
    rfl rfl rfl rfl rfl rfl rfl rfl rfl

/-! ### Claim C3 -/

/-- One link step adds at most one fresh href — simultaneously to the
dedup set and the fetch trace — bumps the tally total by at most one, and
leaves any cell-linked href recorded in the dedup set. -/
theorem linkStepInvariant (net : Network) (pepUrl : String)
    (st : PepSt) (td : Node) (st' : PepSt)
    (h : linkStep net pepUrl st td = Except.ok st') :
    (∃ newF, st'.cachedHref = st.cachedHref ++ newF ∧
      st'.fetched = st.fetched ++ newF ∧
      (newF = [] ∨ ∃ hr, newF = [hr] ∧ hr ∉ st.cachedHref) ∧
      counterTotal st'.counter ≤ counterTotal st.counter + newF.length) ∧
    ∀ hr, tdHref td = some hr → hr ∈ st'.cachedHref := by
  cases ha : bsFind td "a" [] with
  | none =>
    simp [linkStep, ha] at h
    subst h
    exact ⟨⟨[], by simp, by simp, Or.inl rfl, by simp⟩,
      fun hr hhr => by simp [tdHref, ha] at hhr⟩
  | some aTag =>
    cases hh : attrOf aTag "href" with
    | none => simp [linkStep, ha, hh] at h
    | some href =>
      by_cases hc : href ∈ st.cachedHref
      · simp [linkStep, ha, hh, hc] at h
        subst h
        refine ⟨⟨[], by simp, by simp, Or.inl rfl, by simp⟩, ?_⟩
        intro hr hhr
        simp [tdHref, ha, hh] at hhr
        exact hhr ▸ hc
      · cases hnet : net (urljoin pepUrl href) with
        | none => simp [linkStep, ha, hh, hc, get_response, hnet] at h
        | some r =>
          cases hdl : bsFind r.body "dl" [] with
          | none => simp [linkStep, ha, hh, hc, get_response, hnet, find_tag, hdl] at h
          | some dl =>
            cases hes : extractStatus dl.innerText with
            | error e =>
              simp [linkStep, ha, hh, hc, get_response, hnet, find_tag, hdl, hes] at h
            | ok ps =>
              cases hss : st.sectionStatus with
              | none =>
                simp [linkStep, ha, hh, hc, get_response, hnet, find_tag, hdl, hes,
                  hss] at h
              | some labels =>
                by_cases hmem : ps ∈ labels
                · simp [linkStep, ha, hh, hc, get_response, hnet, find_tag, hdl, hes,
                    hss, hmem] at h
                  subst h
                  refine ⟨⟨[href], by simp, by simp, Or.inr ⟨href, rfl, hc⟩, ?_⟩, ?_⟩
                  · simp [counterIncrTotal]
                  · intro hr hhr
                    simp [tdHref, ha, hh] at hhr
                    simp [hhr]
                · simp [linkStep, ha, hh, hc, get_response, hnet, find_tag, hdl, hes,
                    hss, hmem] at h
                  subst h
                  refine ⟨⟨[href], by simp, by simp, Or.inr ⟨href, rfl, hc⟩, by simp⟩, ?_⟩
                  intro hr hhr
                  simp [tdHref, ha, hh] at hhr
                  simp [hhr]

/-- Lemma: `processTd` enjoys the same dedup/fetch/tally step invariant. -/
theorem processTdInvariant (net : Network) (pepUrl : String) (exp : ExpTable)
    (st : PepSt) (td : Node) (st' : PepSt)
    (h : processTd net pepUrl exp st td = Except.ok st') :
    (∃ newF, st'.cachedHref = st.cachedHref ++ newF ∧
      st'.fetched = st.fetched ++ newF ∧
      (newF = [] ∨ ∃ hr, newF = [hr] ∧ hr ∉ st.cachedHref) ∧
      counterTotal st'.counter ≤ counterTotal st.counter + newF.length) ∧
    ∀ hr, tdHref td = some hr → hr ∈ st'.cachedHref := by
  cases hab : bsFind td "abbr" [] with
  | none =>
    simp only [processTd, abbrStep, hab] at h
    exact linkStepInvariant net pepUrl st td st' h
  | some ab =>
    cases hex : exp ((Node.innerText ab).drop 1) with
    | none => simp [processTd, abbrStep, hab, hex] at h
    | some labels =>
      simp only [processTd, abbrStep, hab, hex] at h
      exact linkStepInvariant net pepUrl { st with sectionStatus := some labels } td st' h

/-- Folding the cell loop over one subsection: the freshly fetched hrefs
extend the dedup set and the fetch trace in lockstep, are pairwise
distinct and disjoint from the incoming dedup set, bump the tally total
by at most their number, and cover every cell-linked href. -/
theorem processTdsInvariant (net : Network) (pepUrl : String) (exp : ExpTable) :
    ∀ (tds : List Node) (st st' : PepSt),
      processTds net pepUrl exp st tds = Except.ok st' →
      ∃ newF, st'.cachedHref = st.cachedHref ++ newF ∧
        st'.fetched = st.fetched ++ newF ∧
        (∀ x ∈ newF, x ∉ st.cachedHref) ∧ newF.Nodup ∧
        counterTotal st'.counter ≤ counterTotal st.counter + newF.length ∧
        ∀ td ∈ tds, ∀ hr, tdHref td = some hr → hr ∈ st'.cachedHref := by
  intro tds
  induction tds with
  | nil =>
    intro st st' h
    simp [processTds] at h
    subst h
    exact ⟨[], by simp, by simp, by simp, List.nodup_nil, by simp, by simp⟩
  | cons td rest ih =>
    intro st st' h
    cases hp : processTd net pepUrl exp st td with
    | error e => simp [processTds, hp] at h
    | ok st1 =>
      simp only [processTds, hp] at h
      obtain ⟨⟨newF1, hc1, hf1, hcase, hcnt1⟩, hmem1⟩ :=
        processTdInvariant net pepUrl exp st td st1 hp
      obtain ⟨newF2, hc2, hf2, hnew2, hnd2, hcnt2, hmem2⟩ := ih st1 st' h
      have hmono : ∀ x ∈ st1.cachedHref, x ∈ st'.cachedHref := by
        intro x hx
        rw [hc2]
        exact List.mem_append.mpr (Or.inl hx)
      refine ⟨newF1 ++ newF2, ?_, ?_, ?_, ?_, ?_, ?_⟩
      · rw [hc2, hc1, List.append_assoc]
      · rw [hf2, hf1, List.append_assoc]
      · intro x hx
        rcases List.mem_append.mp hx with hx1 | hx2
        · rcases hcase with h0 | ⟨hr, hrfl, hnotin⟩
          · subst h0; simp at hx1
          · subst hrfl
            simp at hx1
            exact hx1 ▸ hnotin
        · intro hmem
          exact hnew2 x hx2 (hc1 ▸ List.mem_append.mpr (Or.inl hmem))
      · rcases hcase with h0 | ⟨hr, hrfl, _⟩
        · subst h0; simpa using hnd2
        · subst hrfl
          refine List.nodup_cons.mpr ⟨?_, hnd2⟩
          intro hin
          exact hnew2 hr hin (by rw [hc1]; simp)
      · have := List.length_append newF1 newF2
        omega
      · intro t ht hr hhr
        rcases List.mem_cons.mp ht with h1 | h1
        · subst h1
          exact hmono hr (hmem1 hr hhr)
        · exact hmem2 t h1 hr hhr

/-- C3: the deduplication set is reset to empty when a subsection is
entered (the incoming set is irrelevant) and again when it is left; and
whenever a subsection is processed without fault, the detail-page
fetches issued for it are pairwise-distinct hrefs, the tally total grows
by at most one per fetch, and every href linked from a cell of that
subsection is fetched exactly once. -/
theorem c3_dedup_within_subsection (net : Network) (pepUrl : String) (exp : ExpTable)
    (st : PepSt) (sec : Node) :
    (∀ c, processSection net pepUrl exp { st with cachedHref := c } sec =
        processSection net pepUrl exp st sec) ∧
    ∀ st', processSection net pepUrl exp st sec = Except.ok st' →
      st'.cachedHref = [] ∧
      ∃ newF, st'.fetched = st.fetched ++ newF ∧ newF.Nodup ∧
        counterTotal st'.counter ≤ counterTotal st.counter + newF.length ∧
        ∀ td ∈ tdsOfSection sec, ∀ hr, tdHref td = some hr → newF.count hr = 1 := by
  constructor
  · intro c; rfl
  · intro st' h
    cases htb : bsFind sec "table" [] with
    | none =>
      simp [processSection, htb] at h
      subst h
      exact ⟨rfl, [], by simp, List.nodup_nil, by simp, by simp [tdsOfSection, htb]⟩
    | some table =>
      cases hts : processTds net pepUrl exp { st with cachedHref := [] }
          (bsFindAll table "td" []) with
      | error e => simp [processSection, htb, hts] at h
      | ok stI =>
        simp only [processSection, htb, hts] at h
        obtain ⟨newF, hcI, hfI, _, hnd, hcnt, hmemI⟩ :=
          processTdsInvariant net pepUrl exp (bsFindAll table "td" [])
            { st with cachedHref := [] } stI hts
        have h' : ({ stI with cachedHref := [] } : PepSt) = st' := by
          exact Except.ok.inj h
        subst h'
        refine ⟨rfl, newF, hfI, hnd, hcnt, ?_⟩
        intro td htd hr hhr
        have hmem : hr ∈ stI.cachedHref :=
          hmemI td (by simpa [tdsOfSection, htb] using htd) hr hhr
        rw [hcI] at hmem
        simp only [List.nil_append] at hmem
        exact List.count_eq_one_of_mem hnd hmem

/-- C3 witness: a subsection linking `pep-0001` from two cells, entered
with a stale non-empty dedup set: the fetch trace gains the href exactly
once and the tally total grows by one. -/
theorem c3_dedup_within_subsection_witness :
    processSection c3Net "https://peps.python.org/" expA c3St c3Sec =
      Except.ok (⟨[(["Active", "Accepted"], 1)], some ["Active", "Accepted"], [],
        ["pep-0001"], []⟩ : PepSt) ∧
    ((⟨[(["Active", "Accepted"], 1)], some ["Active", "Accepted"], [],
        ["pep-0001"], []⟩ : PepSt).cachedHref = [] ∧
      ∃ newF, (⟨[(["Active", "Accepted"], 1)], some ["Active", "Accepted"], [],
          ["pep-0001"], []⟩ : PepSt).fetched = c3St.fetched ++ newF ∧ newF.Nodup ∧
        counterTotal (⟨[(["Active", "Accepted"], 1)], some ["Active", "Accepted"], [],
            ["pep-0001"], []⟩ : PepSt).counter ≤
          counterTotal c3St.counter + newF.length ∧
        ∀ td ∈ tdsOfSection c3Sec, ∀ hr, tdHref td = some hr → newF.count hr = 1) :=
  ⟨rfl,
   (c3_dedup_within_subsection c3Net "https://peps.python.org/" expA c3St c3Sec).2
     ⟨[(["Active", "Accepted"], 1)], some ["Active", "Accepted"], [], ["pep-0001"], []⟩
     rfl⟩

/-! ### Claim C7 -/

/-- On benign list items, one row is contributed exactly when the
version page fetches. -/
theorem wnFilterMapCount (net : Network) (whatsNewUrl : String) :
    ∀ secs : List Node,
      (∀ s ∈ secs, wnSectionOkB net whatsNewUrl s = true) →
      (secs.filterMap (wnRowOf net whatsNewUrl)).length =
        secs.countP (wnFetchOk net whatsNewUrl) := by
  intro secs
  induction secs with
  | nil => intro _; simp
  | cons s rest ih =>
    intro hok
    have hs := hok s (by simp)
    have hrest : ∀ x ∈ rest, wnSectionOkB net whatsNewUrl x = true :=
      fun x hx => hok x (by simp [hx])
    cases ha : bsFind s "a" [] with
    | none => simp [wnSectionOkB, ha] at hs
    | some aTag =>
      cases hh : attrOf aTag "href" with
      | none => simp [wnSectionOkB, ha, hh] at hs
      | some href =>
        cases hn : net (urljoin whatsNewUrl href) with
        | none =>
          have hrow : wnRowOf net whatsNewUrl s = none := by simp [wnRowOf, ha, hh, hn]
          have hf : wnFetchOk net whatsNewUrl s = false := by
            simp [wnFetchOk, ha, hh, hn]
          simp [List.filterMap_cons, hrow, List.countP_cons, hf, ih hrest]
        | some r =>
          simp only [wnSectionOkB, ha, hh, hn, Bool.and_eq_true] at hs
          obtain ⟨hh1, hdl⟩ := hs
          obtain ⟨h1v, hh1'⟩ := Option.isSome_iff_exists.mp hh1
          obtain ⟨dlv, hdl'⟩ := Option.isSome_iff_exists.mp hdl
          have hrow : wnRowOf net whatsNewUrl s =
              some (urljoin whatsNewUrl href, h1v.innerText,
                collapseNewlines dlv.innerText) := by
            simp [wnRowOf, ha, hh, hn, hh1', hdl']
          have hf : wnFetchOk net whatsNewUrl s = true := by
            simp [wnFetchOk, ha, hh, hn]
          simp [List.filterMap_cons, hrow, List.countP_cons, hf, ih hrest]

/-- The `whats_new` loop on benign list items: it never aborts, appends
exactly the rows of the reachable version pages in document order, and
skips the unreachable ones. -/
theorem wnLoopAppend (net : Network) (whatsNewUrl : String) :
    ∀ (secs : List Node) (acc : List Row3) (lg : List LogEntry),
      (∀ s ∈ secs, wnSectionOkB net whatsNewUrl s = true) →
      ∃ lg', wnLoop net whatsNewUrl secs acc lg =
        (Except.ok (acc ++ secs.filterMap (wnRowOf net whatsNewUrl)), lg') := by
  intro secs
  induction secs with
  | nil => intro acc lg _; exact ⟨lg, by simp [wnLoop]⟩
  | cons s rest ih =>
    intro acc lg hok
    have hs := hok s (by simp)
    have hrest : ∀ x ∈ rest, wnSectionOkB net whatsNewUrl x = true :=
      fun x hx => hok x (by simp [hx])
    cases ha : bsFind s "a" [] with
    | none => simp [wnSectionOkB, ha] at hs
    | some aTag =>
      cases hh : attrOf aTag "href" with
      | none => simp [wnSectionOkB, ha, hh] at hs
      | some href =>
        cases hn : net (urljoin whatsNewUrl href) with
        | none =>
          have hproc : wnProcessSection net whatsNewUrl s =
              (Except.ok none,
               [LogEntry.exceptionWithStack
                 ("Возникла ошибка при загрузке страницы " ++ urljoin whatsNewUrl href)]) := by
            simp [wnProcessSection, find_tag, ha, hh, get_response, hn]
          have hrow : wnRowOf net whatsNewUrl s = none := by simp [wnRowOf, ha, hh, hn]
          obtain ⟨lg', hl⟩ := ih acc
            (lg ++ [LogEntry.exceptionWithStack
              ("Возникла ошибка при загрузке страницы " ++ urljoin whatsNewUrl href)]) hrest
          exact ⟨lg', by simp [wnLoop, hproc, List.filterMap_cons, hrow, hl]⟩
        | some r =>
          simp only [wnSectionOkB, ha, hh, hn, Bool.and_eq_true] at hs
          obtain ⟨hh1, hdl⟩ := hs
          obtain ⟨h1v, hh1'⟩ := Option.isSome_iff_exists.mp hh1
          obtain ⟨dlv, hdl'⟩ := Option.isSome_iff_exists.mp hdl
          have hproc : wnProcessSection net whatsNewUrl s =
              (Except.ok (some (urljoin whatsNewUrl href, h1v.innerText,
                collapseNewlines dlv.innerText)), []) := by
            simp [wnProcessSection, find_tag, ha, hh, get_response, hn, hh1', hdl']
          have hrow : wnRowOf net whatsNewUrl s =
              some (urljoin whatsNewUrl href, h1v.innerText,
                collapseNewlines dlv.innerText) := by
            simp [wnRowOf, ha, hh, hn, hh1', hdl']
          obtain ⟨lg', hl⟩ := ih
            (acc ++ [(urljoin whatsNewUrl href, h1v.innerText,
              collapseNewlines dlv.innerText)]) (lg ++ []) hrest
          exact ⟨lg', by simp [wnLoop, hproc, List.filterMap_cons, hrow]; simpa using hl⟩

/-- C7: whenever the what's-new index is reachable and well-formed and
every listed version page either fails to fetch or parses, the routine
returns the header row followed by exactly one row per successfully
fetched version page, in document order — `1 + M` rows where `M` counts
the reachable version pages; unreachable ones are skipped without
aborting. -/
theorem c7_whats_new_row_count (net : Network) (mainDocUrl : String) (r : Response)
    (mainDiv divWithUl : Node)
    (h1 : net (urljoin mainDocUrl "whatsnew/") = some r)
    (h2 : bsFind r.body "section" [("id", AttrFilter.exact "what-s-new-in-python")] =
      some mainDiv)
    (h3 : bsFind mainDiv "div" [("class", AttrFilter.exact "toctree-wrapper")] =
      some divWithUl)
    (h4 : ∀ s ∈ bsFindAll divWithUl "li" [("class", AttrFilter.exact "toctree-l1")],
      wnSectionOkB net (urljoin mainDocUrl "whatsnew/") s = true) :
    ∃ lg, whats_new net mainDocUrl =
      (Except.ok (some (wnHeader ::
        (bsFindAll divWithUl "li" [("class", AttrFilter.exact "toctree-l1")]).filterMap
          (wnRowOf net (urljoin mainDocUrl "whatsnew/")))), lg) ∧
    (wnHeader ::
      (bsFindAll divWithUl "li" [("class", AttrFilter.exact "toctree-l1")]).filterMap
        (wnRowOf net (urljoin mainDocUrl "whatsnew/"))).length =
      1 + (bsFindAll divWithUl "li" [("class", AttrFilter.exact "toctree-l1")]).countP
        (wnFetchOk net (urljoin mainDocUrl "whatsnew/")) := by
  obtain ⟨lg', hloop⟩ := wnLoopAppend net (urljoin mainDocUrl "whatsnew/")
    (bsFindAll divWithUl "li" [("class", AttrFilter.exact "toctree-l1")])
    [wnHeader] [] h4
  refine ⟨lg', ?_, ?_⟩
  · simp [whats_new, get_response, h1, find_tag, h2, h3, hloop]
  · simp [wnFilterMapCount net (urljoin mainDocUrl "whatsnew/") _ h4]
    omega

/-- C7 witness: an index with two version links of which one resolves —
the result has `1 + 1` rows. -/
theorem c7_whats_new_row_count_witness :
    (∃ lg, whats_new c7Net "https://docs.python.org/3/" =
      (Except.ok (some (wnHeader ::
        (bsFindAll
          (Node.elem "div" [("class", "toctree-wrapper")] [c7Li1, c7Li2])
          "li" [("class", AttrFilter.exact "toctree-l1")]).filterMap
            (wnRowOf c7Net (urljoin "https://docs.python.org/3/" "whatsnew/")))), lg) ∧
    (wnHeader ::
      (bsFindAll (Node.elem "div" [("class", "toctree-wrapper")] [c7Li1, c7Li2])
        "li" [("class", AttrFilter.exact "toctree-l1")]).filterMap
          (wnRowOf c7Net (urljoin "https://docs.python.org/3/" "whatsnew/"))).length =
      1 + (bsFindAll (Node.elem "div" [("class", "toctree-wrapper")] [c7Li1, c7Li2])
        "li" [("class", AttrFilter.exact "toctree-l1")]).countP
          (wnFetchOk c7Net (urljoin "https://docs.python.org/3/" "whatsnew/"))) ∧
    (bsFindAll (Node.elem "div" [("class", "toctree-wrapper")] [c7Li1, c7Li2])
      "li" [("class", AttrFilter.exact "toctree-l1")]).countP
        (wnFetchOk c7Net (urljoin "https://docs.python.org/3/" "whatsnew/")) = 1 :=
  ⟨c7_whats_new_row_count c7Net "https://docs.python.org/3/" ⟨c7Index, "", "utf-8"⟩
    (Node.elem "section" [("id", "what-s-new-in-python")]
      [Node.elem "div" [("class", "toctree-wrapper")] [c7Li1, c7Li2]])
    (Node.elem "div" [("class", "toctree-wrapper")] [c7Li1, c7Li2])
    rfl rfl rfl (by decide),
   by decide⟩

/-! ### Claim C8 -/

/-- C8 counterexample: a downloads page whose only documentation-table
link is `python-docs-pdf-a4.zip?download=1` — a `pdf-a4.zip` href with a
trailing query string.  The `$`-anchored pattern `.+pdf-a4\.zip$` does
not tolerate the query string: instead of selecting that link, the
routine fails with `TagNotFound`. -/
theorem c8_query_string_counterexample :
    (bsFindAll (Node.elem "table" [("class", "docutils")]
        [Node.elem "a" [("href", "python-docs-pdf-a4.zip?download=1")] [Node.text "PDF"]])
        "a" [] =
      [Node.elem "a" [("href", "python-docs-pdf-a4.zip?download=1")] [Node.text "PDF"]] ∧
      ("python-docs-pdf-a4.zip?download=1" : String) =
        "python-docs-" ++ "pdf-a4.zip" ++ "?download=1") ∧
    download c8BadNet "https://docs.python.org/3/" =
      (Except.error
        (RunError.tagNotFound (tagErrMsg "a" (some [("href", AttrFilter.endsPdfA4)]))),
       [LogEntry.errorWithStack (tagErrMsg "a" (some [("href", AttrFilter.endsPdfA4)]))]) :=
  ⟨⟨rfl, rfl⟩, rfl⟩

/-- C8 amended: the routine selects the *first* link of the
documentation table whose href matches `.+pdf-a4\.zip$` — the href must
end in `pdf-a4.zip` with at least one character before it, so path
prefixes are tolerated but trailing query strings are not — and the
saved file's name is the final path segment of the resolved archive URL
while the saved bytes are the archive response body. -/
theorem c8_download_selects_and_saves (net : Network) (mainDocUrl : String)
    (r resp : Response) (mainTag tableTag aTag : Node) (link : String)
    (h1 : net (urljoin mainDocUrl "download.html") = some r)
    (h2 : bsFind r.body "div" [("role", AttrFilter.exact "main")] = some mainTag)
    (h3 : bsFind mainTag "table" [("class", AttrFilter.exact "docutils")] = some tableTag)
    (h4 : bsFind tableTag "a" [("href", AttrFilter.endsPdfA4)] = some aTag)
    (h5 : attrOf aTag "href" = some link)
    (h6 : net (urljoin (urljoin mainDocUrl "download.html") link) = some resp) :
    download net mainDocUrl =
      (Except.ok (some (lastSegment (urljoin (urljoin mainDocUrl "download.html") link),
        resp.content)),
       [LogEntry.info ("Архив был загружен и сохранён: downloads/" ++
         lastSegment (urljoin (urljoin mainDocUrl "download.html") link))]) ∧
    matchesPdfA4 link = true ∧
    ∃ pre post, Node.descendantTags tableTag = pre ++ aTag :: post ∧
      ∀ x ∈ pre, matchesNode "a" [("href", AttrFilter.endsPdfA4)] x = false := by
  obtain ⟨pre, post, heq, hpre, hmatch⟩ := findFirstSplit _ _ _ h4
  refine ⟨?_, ?_, pre, post, heq, hpre⟩
  · simp [download, get_response, find_tag, h1, h2, h3, h4, h5, h6]
  · cases aTag with
    | text s => simp [attrOf] at h5
    | elem t attrs ch =>
      simp only [matchesNode, List.all_cons, List.all_nil, Bool.and_true,
        Bool.and_eq_true] at hmatch
      obtain ⟨-, hconstraint⟩ := hmatch
      rw [h5] at hconstraint
      simpa [attrConstraintOk] using hconstraint

/-- C8 witness: a page whose archive link is
`archives/python-3.11-docs-pdf-a4.zip`; the saved name is the final
path segment and the bytes are the mocked body. -/
theorem c8_download_selects_and_saves_witness :
    (download c8Net "https://docs.python.org/3/" =
      (Except.ok (some (lastSegment (urljoin (urljoin "https://docs.python.org/3/"
          "download.html") "archives/python-3.11-docs-pdf-a4.zip"),
        (Response.mk (Node.text "") "PDFBYTES" "binary").content)),
       [LogEntry.info ("Архив был загружен и сохранён: downloads/" ++
         lastSegment (urljoin (urljoin "https://docs.python.org/3/" "download.html")
           "archives/python-3.11-docs-pdf-a4.zip"))]) ∧
      matchesPdfA4 "archives/python-3.11-docs-pdf-a4.zip" = true ∧
      ∃ pre post, Node.descendantTags
          (Node.elem "table" [("class", "docutils")]
            [Node.elem "a" [("href", "archives/python-3.11-docs-pdf-a4.zip")]
              [Node.text "PDF"]]) = pre ++
          (Node.elem "a" [("href", "archives/python-3.11-docs-pdf-a4.zip")]
            [Node.text "PDF"]) :: post ∧
        ∀ x ∈ pre, matchesNode "a" [("href", AttrFilter.endsPdfA4)] x = false) ∧
    lastSegment (urljoin (urljoin "https://docs.python.org/3/" "download.html")
      "archives/python-3.11-docs-pdf-a4.zip") = "python-3.11-docs-pdf-a4.zip" :=
  ⟨c8_download_selects_and_saves c8Net "https://docs.python.org/3/"
    ⟨c8Page, "", "utf-8"⟩ ⟨Node.text "", "PDFBYTES", "binary"⟩
    (Node.elem "div" [("role", "main")]
      [Node.elem "table" [("class", "docutils")]
        [Node.elem "a" [("href", "archives/python-3.11-docs-pdf-a4.zip")]
          [Node.text "PDF"]]])
    (Node.elem "table" [("class", "docutils")]
      [Node.elem "a" [("href", "archives/python-3.11-docs-pdf-a4.zip")]
        [Node.text "PDF"]])
    (Node.elem "a" [("href", "archives/python-3.11-docs-pdf-a4.zip")] [Node.text "PDF"])
    "archives/python-3.11-docs-pdf-a4.zip" rfl rfl rfl rfl rfl rfl,
   rfl⟩

end BsParser
